import Mathlib

/-!
Verification development for the cross-instance synchronized validation
coordinator (`codes/apps/water-nsquared/cross_validation.{h,c}`).

The embedding models, as pure Lean functions:
  * the tolerant fingerprint comparator `compare_fingerprints_with_tolerance`
    (fingerprints are `List Char`; `strtod` is modelled by `parseDouble`,
    an exact-rational reading of the decimal grammar accepted by `strtod`
    for a complete token — hex, infinity and NaN forms are not modelled,
    and rational arithmetic stands in for IEEE doubles);
  * the coordinator's rendezvous handler `handle_sync_point_message`,
    including the slot reset, the comparison loop, the `assert(0)` on a
    mismatch (modelled as an `aborted` flag, since a failed `assert`
    terminates the process with a nonzero status), and the broadcast loop;
  * the participant-side `cross_validate_sync_point`, with the socket
    receive loop abstracted into a `RecvOutcome` oracle (complete
    response, timeout, or transport error) because real-time behaviour of
    `select`/`recv` is not embeddable.

Log strings reproduce the `printf` text with the emoji prefixes elided.
-/

namespace CrossValidation

/-- `MAX_INSTANCES` from cross_validation.h. -/
def MAX_INSTANCES : Nat := 4

/-- `MAX_FINGERPRINT_LEN` from cross_validation.h. -/
def MAX_FINGERPRINT_LEN : Nat := 256

/-- `FLOAT_TOLERANCE` (1e-10) from cross_validation.h, as an exact rational. -/
def FLOAT_TOLERANCE : ℚ := 1 / 10 ^ 10

/-- `message_type_t` from cross_validation.h. -/
inductive MessageType where
  | MSG_REGISTER_INSTANCE
  | MSG_SYNC_POINT
  | MSG_VALIDATION_RESULT
  | MSG_SHUTDOWN
deriving DecidableEq

/-- `validation_message_t` from cross_validation.h.  Fingerprints and
mismatch details are byte strings, modelled as `List Char`. -/
structure ValidationMessage where
  type : MessageType
  instance_id : Int
  sync_point : Int
  fingerprint : List Char
  validation_passed : Int
  mismatch_details : List Char
deriving DecidableEq

/-- The separator class used by `strtok_r(.., " =", ..)`: space and equals. -/
def isSep (c : Char) : Bool := c == ' ' || c == '='

/-- Accumulating tokenizer: splits on `isSep`, dropping empty tokens, as
`strtok_r` does.  `acc` holds the characters of the current token in
reverse. -/
def tokenizeAux : List Char → List Char → List (List Char)
  | [], acc => if acc.isEmpty then [] else [acc.reverse]
  | c :: rest, acc =>
    if isSep c then
      if acc.isEmpty then tokenizeAux rest []
      else acc.reverse :: tokenizeAux rest []
    else tokenizeAux rest (c :: acc)

/-- The token sequence `strtok_r(s, " =", ..)` produces: maximal runs of
non-separator characters. -/
def tokenize (s : List Char) : List (List Char) := tokenizeAux s []

/-- Numeric value of a digit list, most significant first. -/
def digitsToNat : List Char → Nat → Nat
  | [], acc => acc
  | c :: rest, acc => digitsToNat rest (acc * 10 + (c.toNat - 48))

/-- Model of `strtod(token, &end)` succeeding with `*end == 0`, i.e. the
whole token is consumed.  Grammar modelled: optional sign, decimal
mantissa (digits, optionally with a fractional part; an initial point
with fractional digits is also accepted), optional decimal exponent.
The parsed value is represented exactly (no IEEE rounding) as a pair
`(n, k)` denoting the rational `n / 10 ^ k`, kept unreduced so that all
later arithmetic is plain integer arithmetic the kernel can evaluate;
the hex, `inf`/`nan`, and leading-whitespace forms of `strtod` are not
modelled. -/
def parseDouble (t : List Char) : Option (Int × Nat) :=
  let (sgn, r1) : Int × List Char :=
    match t with
    | '+' :: r => (1, r)
    | '-' :: r => (-1, r)
    | r => (1, r)
  let ipPair := r1.span Char.isDigit
  let ip := ipPair.1
  let r2 := ipPair.2
  let fpPair : List Char × List Char :=
    match r2 with
    | '.' :: r => r.span Char.isDigit
    | r => ([], r)
  let fp := fpPair.1
  let r3 := if r2.head? = some '.' then fpPair.2 else r2
  if ip.isEmpty && fp.isEmpty then none
  else
    let num0 : Int :=
      sgn * ((digitsToNat ip 0 * 10 ^ fp.length + digitsToNat fp 0 : Nat) : Int)
    match r3 with
    | [] => some (num0, fp.length)
    | e :: r4 =>
      if e == 'e' || e == 'E' then
        let (esgn, r5) : Int × List Char :=
          match r4 with
          | '+' :: r => (1, r)
          | '-' :: r => (-1, r)
          | r => (1, r)
        let edPair := r5.span Char.isDigit
        if edPair.1.isEmpty || !edPair.2.isEmpty then none
        else
          let eexp : Int := esgn * ((digitsToNat edPair.1 0 : Nat) : Int)
          if 0 ≤ eexp then some (num0 * 10 ^ eexp.toNat, fp.length)
          else some (num0, fp.length + (-eexp).toNat)
      else none

/-- The rational value a parsed pair `(n, k)` denotes: `n / 10 ^ k`. -/
def ratOfParsed (p : Int × Nat) : ℚ := (p.1 : ℚ) / 10 ^ p.2

/-- The tolerant numeric test `fabs(val1 - val2) <= FLOAT_TOLERANCE`,
carried out exactly by cross multiplication over the unreduced
`n / 10 ^ k` representations (`numTolMatch_iff` below shows this is the
rational-number statement). -/
def numTolMatch (p1 p2 : Int × Nat) : Bool :=
  decide ((p1.1 * 10 ^ p2.2 - p2.1 * 10 ^ p1.2).natAbs * 10 ^ 10 ≤ 10 ^ p1.2 * 10 ^ p2.2)

/-- One iteration of the comparator's token test: numeric comparison with
absolute tolerance when both tokens parse completely as doubles, exact
byte equality otherwise (cross_validation.c lines 394-411). -/
def tokenMatch (t1 t2 : List Char) : Bool :=
  match parseDouble t1, parseDouble t2 with
  | some p1, some p2 => numTolMatch p1 p2
  | _, _ => decide (t1 = t2)

/-- The comparator's `while (token1 && token2 && match)` loop followed by
the `if (token1 || token2) match = 0;` length check: token lists match
iff they have equal length and every aligned pair passes `tokenMatch`. -/
def compareTokenLists : List (List Char) → List (List Char) → Bool
  | [], [] => true
  | t1 :: r1, t2 :: r2 => tokenMatch t1 t2 && compareTokenLists r1 r2
  | _, _ => false

/-- `compare_fingerprints_with_tolerance` (cross_validation.c lines
375-425).  The `strdup`-failure fallback to `strcmp` cannot occur in the
model (allocation cannot fail). -/
def compare_fingerprints_with_tolerance (fp1 fp2 : List Char) : Bool :=
  compareTokenLists (tokenize fp1) (tokenize fp2)

/-- The coordinator's rendezvous state, `coordinator_state_t`
(cross_validation.c lines 32-40).  The fixed C arrays
`fingerprints[MAX_INSTANCES][..]` and `instance_ids[MAX_INSTANCES]` are
modelled as total functions on `Nat` so that the (unchecked) store index
can be reasoned about separately; the `validation_failed` and
`mismatch_details` fields of the C struct are never read or written by
the modelled paths and are omitted. -/
structure CoordinatorState where
  current_sync_point : Int
  instances_arrived : Nat
  fingerprints : Nat → List Char
  instance_ids : Nat → Int
  num_instances : Nat

/-- The coordinator state right after `init_cross_validation`
(cross_validation.c lines 42 and 118-121): the static zero initializer
leaves both arrays zeroed, then init sets `current_sync_point = -1` and
`instances_arrived = 0`. -/
def initCoordinatorState (n : Nat) : CoordinatorState where
  current_sync_point := -1
  instances_arrived := 0
  fingerprints := fun _ => []
  instance_ids := fun _ => 0
  num_instances := n

/-- The single-quote character, used by the coordinator's mismatch log
format. -/
def squote : Char := Char.ofNat 39

/-- Decimal rendering of an `Int`, as `printf("%d", ..)` produces. -/
def intToChars (i : Int) : List Char := (toString i).data

/-- The mismatch log string the coordinator formats with `snprintf`
(cross_validation.c lines 541-545); `snprintf` with a 512-byte buffer
keeps at most 511 characters. -/
def mismatchString (sp : Int) (id0 : Int) (fp0 : List Char)
    (idi : Int) (fpi : List Char) : List Char :=
  (("Sync point ".data ++ intToChars sp ++ ": Instance ".data ++ intToChars id0
      ++ ['='] ++ [squote] ++ fp0 ++ [squote]
      ++ " vs Instance ".data ++ intToChars idi
      ++ ['='] ++ [squote] ++ fpi ++ [squote])).take 511

/-- The comparison loop `for (i = 1; i < num_instances; i++)`
(cross_validation.c lines 538-548): the index of the first fingerprint
that fails to compare against `fingerprints[0]`, if any. -/
def firstFail (fp0 : List Char) (fps : Nat → List Char) (n : Nat) : Option Nat :=
  (List.range' 1 (n - 1)).find? fun i => !compare_fingerprints_with_tolerance fp0 (fps i)

/-- One iteration of the broadcast loop (cross_validation.c lines
567-595) for arrival slot `i`: a response is sent when the recorded
instance id is in `[0, MAX_INSTANCES)` and its registered fd is
positive; the result carries the *other* arrival's fingerprint as
`mismatch_details` when `num_instances == 2` and an empty string
otherwise.  The `fingerprint` field of the response is left
uninitialized by the C code and is modelled as empty.  The result pairs
the target instance id with the message. -/
def responseFor (st : CoordinatorState) (client_fds : Int → Int)
    (sp : Int) (passed : Int) (i : Nat) : Option (Int × ValidationMessage) :=
  let iid := st.instance_ids i
  if 0 ≤ iid ∧ iid < (MAX_INSTANCES : Int) then
    if client_fds iid > 0 then
      some (iid,
        { type := .MSG_VALIDATION_RESULT
          instance_id := -1
          sync_point := sp
          fingerprint := []
          validation_passed := passed
          mismatch_details :=
            if st.num_instances = 2 then
              (st.fingerprints (if i = 0 then 1 else 0)).take 511
            else [] })
    else none
  else none

/-- The broadcast loop `for (i = 0; i < instances_arrived; i++)`
(cross_validation.c lines 567-596). -/
def buildResponses (st : CoordinatorState) (client_fds : Int → Int)
    (sp : Int) (passed : Int) : List (Int × ValidationMessage) :=
  (List.range st.instances_arrived).filterMap (responseFor st client_fds sp passed)

/-- The observable outcome of one `handle_sync_point_message` call:
the updated rendezvous state, the raw array index used by the stores at
cross_validation.c lines 515-518 (the code performs no bounds check on
it), the mismatch string logged on a failed comparison, whether the
coordinator's `assert(0)` fired (terminating the process before
anything further runs), and the responses sent by the broadcast loop. -/
structure HandleResult where
  state : CoordinatorState
  slot : Nat
  logMismatch : Option (List Char)
  aborted : Bool
  responses : List (Int × ValidationMessage)

/-- The reset on a new sync-point id (cross_validation.c lines
506-512): when the live slot's id differs from the message's, the id is
updated, the arrival count zeroed, the fingerprint array cleared with
`memset 0`, and the instance-id array set to -1 with `memset -1`. -/
def resetSlotIfNew (st : CoordinatorState) (sp : Int) : CoordinatorState :=
  if st.current_sync_point ≠ sp then
    { st with
        current_sync_point := sp
        instances_arrived := 0
        fingerprints := fun _ => []
        instance_ids := fun _ => -1 }
  else st

/-- The raw index `slot = instances_arrived` used by the stores at
cross_validation.c lines 515-518, read after the possible reset. -/
def arrivalSlot (st : CoordinatorState) (msg : ValidationMessage) : Nat :=
  (resetSlotIfNew st msg.sync_point).instances_arrived

/-- The state after the possible reset and the store of the new arrival
(cross_validation.c lines 506-519): the message's fingerprint
(truncated by `strncpy` to `MAX_FINGERPRINT_LEN - 1` characters) and
instance id are written at index `slot`, then the arrival count is
incremented. -/
def arrivalState (st : CoordinatorState) (msg : ValidationMessage) : CoordinatorState :=
  let st1 := resetSlotIfNew st msg.sync_point
  let slot := st1.instances_arrived
  { st1 with
      fingerprints := fun j =>
        if j = slot then msg.fingerprint.take (MAX_FINGERPRINT_LEN - 1)
        else st1.fingerprints j
      instance_ids := fun j => if j = slot then msg.instance_id else st1.instance_ids j
      instances_arrived := slot + 1 }

/-- `handle_sync_point_message` (cross_validation.c lines 504-598).
After the possible reset and the store of the arrival, nothing further
happens until the arrival count reaches `num_instances`; then
`fingerprints[0]` is compared against each other fingerprint, and on
the first failure the mismatch string is logged and `assert(0)` aborts
the process — the broadcast loop is reached only when all comparisons
passed, and then sends `validation_passed = 1`. -/
def handle_sync_point_message (st : CoordinatorState) (client_fds : Int → Int)
    (msg : ValidationMessage) : HandleResult :=
  let st2 := arrivalState st msg
  if st2.instances_arrived = st2.num_instances then
    match firstFail (st2.fingerprints 0) st2.fingerprints st2.num_instances with
    | none =>
        { state := st2
          slot := arrivalSlot st msg
          logMismatch := none
          aborted := false
          responses := buildResponses st2 client_fds msg.sync_point 1 }
    | some i =>
        { state := st2
          slot := arrivalSlot st msg
          logMismatch := some (mismatchString msg.sync_point (st2.instance_ids 0)
            (st2.fingerprints 0) (st2.instance_ids i) (st2.fingerprints i))
          aborted := true
          responses := [] }
  else
    { state := st2, slot := arrivalSlot st msg, logMismatch := none, aborted := false
      responses := [] }

/-- Feeding a sequence of SYNC_POINT messages through the coordinator,
collecting the raw store index each call used; processing stops when the
coordinator's assertion fires (the process is gone). -/
def processMessages (st : CoordinatorState) (client_fds : Int → Int) :
    List ValidationMessage → List Nat
  | [] => []
  | m :: rest =>
    let r := handle_sync_point_message st client_fds m
    if r.aborted then [r.slot]
    else r.slot :: processMessages r.state client_fds rest

/-- Outcome of the bounded receive loop inside
`cross_validate_sync_point` (cross_validation.c lines 291-345): either a
complete `validation_message_t` was assembled, or the 5-second deadline
elapsed first, or a transport error (failed `select`/`recv`, peer close)
ended the wait.  The loop's real-time polling is abstracted into this
oracle. -/
inductive RecvOutcome where
  | complete (response : ValidationMessage)
  | timedOut
  | transportError
deriving DecidableEq

/-- How a `cross_validate_sync_point` call ends: a normal return, or the
client `assert(0)` (which terminates the process with a nonzero
status). -/
inductive ClientOutcome where
  | returned
  | aborted
deriving DecidableEq

/-- Observable effects of one `cross_validate_sync_point` call: the
value of `g_sync_point_counter` after the call, the SYNC_POINT messages
sent, how the call ended, and the log lines printed (emoji prefixes
elided). -/
structure ClientResult where
  counter : Nat
  sent : List ValidationMessage
  outcome : ClientOutcome
  logs : List (List Char)
deriving DecidableEq

/-- `cross_validate_sync_point` (cross_validation.c lines 243-372).
Arguments mirror the globals it reads: `g_validation_enabled` (together
with a non-null `g_validation_context`), `checkpoint_in_progress`,
`g_sync_point_counter`, and `g_instance_id`; the receive loop is the
`recv` oracle.  The `sync_point_t` label parameter is unused by the
control flow and omitted.  The sent message's `validation_passed` and
`mismatch_details` fields are left uninitialized by the C code and are
modelled as `0` and `[]`. -/
def cross_validate_sync_point (g_validation_enabled : Bool)
    (checkpoint_in_progress : Bool) (g_sync_point_counter : Nat)
    (g_instance_id : Int) (fingerprint : List Char)
    (recv : RecvOutcome) : ClientResult :=
  if !g_validation_enabled then
    { counter := g_sync_point_counter, sent := [], outcome := .returned, logs := [] }
  else if checkpoint_in_progress then
    { counter := g_sync_point_counter, sent := [], outcome := .returned
      logs := ["[CV-DEBUG] Skipping validation during checkpoint".data] }
  else
    let unique_sync_point := g_sync_point_counter + 1
    let msg : ValidationMessage :=
      { type := .MSG_SYNC_POINT
        instance_id := g_instance_id
        sync_point := (unique_sync_point : Int)
        fingerprint := fingerprint.take (MAX_FINGERPRINT_LEN - 1)
        validation_passed := 0
        mismatch_details := [] }
    match recv with
    | .transportError =>
        { counter := unique_sync_point, sent := [msg], outcome := .returned
          logs := ["Instance receive failed or connection closed".data] }
    | .timedOut =>
        { counter := unique_sync_point, sent := [msg], outcome := .returned
          logs := ["Instance ".data ++ intToChars g_instance_id
            ++ " timeout waiting for validation response".data] }
    | .complete response =>
        if response.type = .MSG_VALIDATION_RESULT then
          if response.validation_passed ≠ 0 then
            { counter := unique_sync_point, sent := [msg], outcome := .returned
              logs := ["SYNCHRONIZED MATCH at sync point ".data
                ++ intToChars unique_sync_point] }
          else
            { counter := unique_sync_point, sent := [msg], outcome := .aborted
              logs := ["CLIENT MISMATCH DETECTED at sync point ".data
                  ++ intToChars unique_sync_point,
                "Local fingerprint: ".data ++ fingerprint,
                "Other fingerprint: ".data ++ response.mismatch_details,
                "CLIENT ASSERTION FAILED: Synchronized cross-validation failed!".data,
                "Client terminating due to validation mismatch.".data] }
        else
          { counter := unique_sync_point, sent := [msg], outcome := .returned, logs := [] }

/-- Spec-side reading of §4.2 for a single token pair: when both tokens
parse completely as numbers, their rational values satisfy
`|a - b| ≤ 10⁻¹⁰`; otherwise the raw token bytes are equal. -/
def specTokenMatch (t1 t2 : List Char) : Prop :=
  match parseDouble t1, parseDouble t2 with
  | some p1, some p2 => |ratOfParsed p1 - ratOfParsed p2| ≤ FLOAT_TOLERANCE
  | _, _ => t1 = t2

/-- Spec-side reading of §4.2: the two strings split into token
sequences of equal length whose aligned pairs all match (numerically
with tolerance when both tokens parse completely as doubles, by exact
byte equality otherwise). -/
def matchesSpec (fp1 fp2 : List Char) : Prop :=
  (tokenize fp1).length = (tokenize fp2).length ∧
  ∀ (i : Nat) (h1 : i < (tokenize fp1).length) (h2 : i < (tokenize fp2).length),
    specTokenMatch ((tokenize fp1).get ⟨i, h1⟩) ((tokenize fp2).get ⟨i, h2⟩)

/-- Length of the maximal prefix of `l` consisting of the value `c`:
how many consecutive upcoming messages still carry the sync-point id
`c`. -/
def leadRun (c : Int) : List Int → Nat
  | [] => 0
  | x :: xs => if x = c then leadRun c xs + 1 else 0

/-- Every maximal constant run in `l` has length at most
`MAX_INSTANCES`: at each position, the forward run of the element found
there is so bounded.  For a sequence of sync-point ids this says that at
most `MAX_INSTANCES` consecutive messages carry the same id — the
hypothesis that each registered participant submits each sync point at
most once, with `N ≤ MAX_INSTANCES` participants. -/
def RunsBounded (l : List Int) : Prop :=
  ∀ i, ∀ h : i < l.length, leadRun (l.get ⟨i, h⟩) (l.drop i) ≤ MAX_INSTANCES

/-- A client-fd table in which every instance has a positive fd, for
concrete runs. -/
def fdsAll7 : Int → Int := fun _ => 7

/-- A concrete SYNC_POINT message (the fields `validation_passed` and
`mismatch_details` are irrelevant to the handler). -/
def syncMsg (iid sp : Int) (fp : List Char) : ValidationMessage :=
  { type := .MSG_SYNC_POINT
    instance_id := iid
    sync_point := sp
    fingerprint := fp
    validation_passed := 0
    mismatch_details := [] }

theorem compareTokenLists_iff (l1 : List (List Char)) : ∀ (l2 : List (List Char)),
    compareTokenLists l1 l2 = true ↔
      (l1.length = l2.length ∧
        ∀ (i : Nat) (h1 : i < l1.length) (h2 : i < l2.length),
          tokenMatch (l1.get ⟨i, h1⟩) (l2.get ⟨i, h2⟩) = true) := by
  induction l1 with
  | nil =>
    intro l2
    cases l2 with
    | nil => simp [compareTokenLists]
    | cons t r => simp [compareTokenLists]
  | cons t1 r1 ih =>
    intro l2
    cases l2 with
    | nil => simp [compareTokenLists]
    | cons t2 r2 =>
      simp only [compareTokenLists, Bool.and_eq_true, ih, List.length_cons]
      constructor
      · rintro ⟨hm, hlen, hall⟩
        refine ⟨by omega, ?_⟩
        intro i h1 h2
        cases i with
        | zero => exact hm
        | succ j => exact hall j (by omega) (by omega)
      · rintro ⟨hlen, hall⟩
        exact ⟨hall 0 (by omega) (by omega), by omega,
          fun j hj1 hj2 => hall (j + 1) (by omega) (by omega)⟩

theorem tokenizeAux_ne_nil (s : List Char) :
    ∀ (acc : List Char), ∀ t ∈ tokenizeAux s acc, t ≠ [] := by
  induction s with
  | nil =>
    intro acc t ht
    simp only [tokenizeAux] at ht
    split at ht
    · simp at ht
    · rename_i h
      simp only [List.mem_singleton] at ht
      subst ht
      have hacc : acc ≠ [] := fun hn => h (by simp [hn])
      simpa using hacc
  | cons c rest ih =>
    intro acc t ht
    simp only [tokenizeAux] at ht
    split at ht
    · split at ht
      · exact ih [] t ht
      · rename_i h
        rcases List.mem_cons.mp ht with h1 | h2
        · subst h1
          have hacc : acc ≠ [] := fun hn => h (by simp [hn])
          simpa using hacc
        · exact ih [] t h2
    · exact ih (c :: acc) t ht

/-- The exact cross-multiplied test agrees with the rational-number
statement of the spec's tolerance comparison. -/
theorem numTolMatch_iff (p1 p2 : Int × Nat) :
    numTolMatch p1 p2 = true ↔ |ratOfParsed p1 - ratOfParsed p2| ≤ FLOAT_TOLERANCE := by
  obtain ⟨n1, k1⟩ := p1
  obtain ⟨n2, k2⟩ := p2
  simp only [numTolMatch, ratOfParsed, FLOAT_TOLERANCE, decide_eq_true_eq]
  have h1 : (0 : ℚ) < 10 ^ k1 := by positivity
  have h2 : (0 : ℚ) < 10 ^ k2 := by positivity
  rw [div_sub_div _ _ (ne_of_gt h1) (ne_of_gt h2), abs_div,
    abs_of_pos (by positivity : (0 : ℚ) < 10 ^ k1 * 10 ^ k2),
    div_le_div_iff₀ (by positivity) (by positivity), one_mul,
    show ((n1 : ℚ) * 10 ^ k2 - 10 ^ k1 * (n2 : ℚ)) =
      ((n1 * 10 ^ k2 - n2 * 10 ^ k1 : Int) : ℚ) by push_cast; ring,
    ← Int.cast_abs, Int.abs_eq_natAbs]
  constructor
  · intro h
    exact_mod_cast h
  · intro h
    exact_mod_cast h

theorem natAbs_sub_comm (a b : Int) : (a - b).natAbs = (b - a).natAbs := by
  rw [← Int.natAbs_neg (a - b), neg_sub]

theorem tokenMatch_iff_spec (t1 t2 : List Char) :
    tokenMatch t1 t2 = true ↔ specTokenMatch t1 t2 := by
  unfold tokenMatch specTokenMatch
  cases h1 : parseDouble t1 <;> cases h2 : parseDouble t2
  · simp
  · simp
  · simp
  · exact numTolMatch_iff _ _

theorem tokenMatch_refl (t : List Char) : tokenMatch t t = true := by
  unfold tokenMatch
  cases h : parseDouble t with
  | none => simp
  | some p => simp [numTolMatch]

theorem tokenMatch_symm (t1 t2 : List Char) : tokenMatch t1 t2 = tokenMatch t2 t1 := by
  unfold tokenMatch
  cases h1 : parseDouble t1 <;> cases h2 : parseDouble t2
  · simp [eq_comm]
  · simp [eq_comm]
  · simp [eq_comm]
  · simp [numTolMatch, natAbs_sub_comm, Nat.mul_comm]

theorem compareTokenLists_refl (l : List (List Char)) :
    compareTokenLists l l = true := by
  induction l with
  | nil => rfl
  | cons t r ih => simp [compareTokenLists, tokenMatch_refl, ih]

theorem compareTokenLists_symm (l1 : List (List Char)) : ∀ (l2 : List (List Char)),
    compareTokenLists l1 l2 = compareTokenLists l2 l1 := by
  induction l1 with
  | nil =>
    intro l2
    cases l2 with
    | nil => rfl
    | cons t r => rfl
  | cons t1 r1 ih =>
    intro l2
    cases l2 with
    | nil => rfl
    | cons t2 r2 => simp [compareTokenLists, tokenMatch_symm t1 t2, ih r2]

/-- C2: the comparator returns a match iff splitting both inputs on
space and equals yields sequences of non-empty tokens of equal length
whose aligned pairs all match — numerically with absolute tolerance
1e-10 when both parse completely as doubles, by exact byte equality
otherwise; empty tokens from consecutive separators never appear in the
token sequences. -/
theorem claim_C2_comparator_matches_spec (fp1 fp2 : List Char) :
    (compare_fingerprints_with_tolerance fp1 fp2 = true ↔ matchesSpec fp1 fp2) ∧
    (∀ t ∈ tokenize fp1, t ≠ []) ∧ (∀ t ∈ tokenize fp2, t ≠ []) := by
  refine ⟨?_, tokenizeAux_ne_nil fp1 [], tokenizeAux_ne_nil fp2 []⟩
  rw [compare_fingerprints_with_tolerance,
    compareTokenLists_iff (tokenize fp1) (tokenize fp2)]
  unfold matchesSpec
  constructor
  · rintro ⟨hlen, hall⟩
    exact ⟨hlen, fun i hi1 hi2 => (tokenMatch_iff_spec _ _).mp (hall i hi1 hi2)⟩
  · rintro ⟨hlen, hall⟩
    exact ⟨hlen, fun i hi1 hi2 => (tokenMatch_iff_spec _ _).mpr (hall i hi1 hi2)⟩

/-- C9: the fingerprint comparator is reflexive (every string matches
itself) and symmetric (the result does not depend on argument order). -/
theorem claim_C9_comparator_refl_symm :
    (∀ fp, compare_fingerprints_with_tolerance fp fp = true) ∧
    (∀ fp1 fp2, compare_fingerprints_with_tolerance fp1 fp2 =
      compare_fingerprints_with_tolerance fp2 fp1) :=
  ⟨fun fp => compareTokenLists_refl (tokenize fp),
   fun fp1 fp2 => compareTokenLists_symm (tokenize fp1) (tokenize fp2)⟩

/-- C8: while the checkpoint-in-progress flag is set, every
`cross_validate_sync_point` call returns immediately: no message is
sent, the local sync-point counter is not incremented, and the call
ends in a normal return rather than a wait or an abort. -/
theorem claim_C8_checkpoint_flag_noop (en : Bool) (counter : Nat) (iid : Int)
    (fp : List Char) (recv : RecvOutcome) :
    (cross_validate_sync_point en true counter iid fp recv).counter = counter ∧
    (cross_validate_sync_point en true counter iid fp recv).sent = [] ∧
    (cross_validate_sync_point en true counter iid fp recv).outcome = .returned := by
  cases en <;> simp [cross_validate_sync_point]

/-- C7: when the receive deadline elapses without a complete
VALIDATION_RESULT, `cross_validate_sync_point` logs the timeout warning
and returns normally — the process does not abort, so a timeout is
never treated as a mismatch. -/
theorem claim_C7_timeout_returns_normally (counter : Nat) (iid : Int) (fp : List Char) :
    (cross_validate_sync_point true false counter iid fp .timedOut).outcome = .returned ∧
    (cross_validate_sync_point true false counter iid fp .timedOut).counter = counter + 1 ∧
    (cross_validate_sync_point true false counter iid fp .timedOut).logs =
      ["Instance ".data ++ intToChars iid
        ++ " timeout waiting for validation response".data] :=
  ⟨rfl, rfl, rfl⟩

/-- C5: a `cross_validate_sync_point` call that receives a
VALIDATION_RESULT with `validation_passed == 0` logs the local
fingerprint and the peer-supplied other fingerprint and then aborts the
process (the client `assert(0)`, a nonzero-status termination); a
result with a nonzero `validation_passed` returns normally. -/
theorem claim_C5_mismatch_result_aborts (counter : Nat) (iid : Int) (fp : List Char)
    (r : ValidationMessage) (hty : r.type = .MSG_VALIDATION_RESULT) :
    (r.validation_passed = 0 →
      (cross_validate_sync_point true false counter iid fp (.complete r)).outcome = .aborted ∧
      ("Local fingerprint: ".data ++ fp) ∈
        (cross_validate_sync_point true false counter iid fp (.complete r)).logs ∧
      ("Other fingerprint: ".data ++ r.mismatch_details) ∈
        (cross_validate_sync_point true false counter iid fp (.complete r)).logs) ∧
    (r.validation_passed ≠ 0 →
      (cross_validate_sync_point true false counter iid fp (.complete r)).outcome = .returned) := by
  unfold cross_validate_sync_point
  constructor
  · intro h0
    simp [hty, h0]
  · intro hnz
    simp [hty, hnz]

/-- Witness for C5 at a concrete failing result. -/
theorem claim_C5_mismatch_result_aborts_witness :
    (cross_validate_sync_point true false 0 1 ['f']
      (.complete ⟨.MSG_VALIDATION_RESULT, -1, 1, [], 0, ['g']⟩)).outcome = .aborted :=
  ((claim_C5_mismatch_result_aborts 0 1 ['f'] _ rfl).1 rfl).1

theorem handle_state_eq (st : CoordinatorState) (fds : Int → Int)
    (msg : ValidationMessage) :
    (handle_sync_point_message st fds msg).state = arrivalState st msg := by
  simp only [handle_sync_point_message]
  split
  · split <;> rfl
  · rfl

theorem handle_slot_eq (st : CoordinatorState) (fds : Int → Int)
    (msg : ValidationMessage) :
    (handle_sync_point_message st fds msg).slot = arrivalSlot st msg := by
  simp only [handle_sync_point_message]
  split
  · split <;> rfl
  · rfl

theorem handle_not_full (st : CoordinatorState) (fds : Int → Int)
    (msg : ValidationMessage)
    (h : (arrivalState st msg).instances_arrived ≠ (arrivalState st msg).num_instances) :
    handle_sync_point_message st fds msg =
      { state := arrivalState st msg, slot := arrivalSlot st msg, logMismatch := none
        aborted := false, responses := [] } := by
  simp only [handle_sync_point_message]
  rw [if_neg h]

theorem handle_full_pass (st : CoordinatorState) (fds : Int → Int)
    (msg : ValidationMessage)
    (h : (arrivalState st msg).instances_arrived = (arrivalState st msg).num_instances)
    (hm : firstFail ((arrivalState st msg).fingerprints 0) (arrivalState st msg).fingerprints
      (arrivalState st msg).num_instances = none) :
    handle_sync_point_message st fds msg =
      { state := arrivalState st msg, slot := arrivalSlot st msg, logMismatch := none
        aborted := false
        responses := buildResponses (arrivalState st msg) fds msg.sync_point 1 } := by
  simp only [handle_sync_point_message]
  rw [if_pos h, hm]

theorem handle_full_fail (st : CoordinatorState) (fds : Int → Int)
    (msg : ValidationMessage) (i : Nat)
    (h : (arrivalState st msg).instances_arrived = (arrivalState st msg).num_instances)
    (hm : firstFail ((arrivalState st msg).fingerprints 0) (arrivalState st msg).fingerprints
      (arrivalState st msg).num_instances = some i) :
    handle_sync_point_message st fds msg =
      { state := arrivalState st msg, slot := arrivalSlot st msg
        logMismatch := some (mismatchString msg.sync_point
          ((arrivalState st msg).instance_ids 0) ((arrivalState st msg).fingerprints 0)
          ((arrivalState st msg).instance_ids i) ((arrivalState st msg).fingerprints i))
        aborted := true, responses := [] } := by
  simp only [handle_sync_point_message]
  rw [if_pos h, hm]

theorem firstFail_eq_none_iff (fp0 : List Char) (fps : Nat → List Char) (n : Nat) :
    firstFail fp0 fps n = none ↔
      ∀ i, 1 ≤ i → i < n → compare_fingerprints_with_tolerance fp0 (fps i) = true := by
  unfold firstFail
  rw [List.find?_eq_none]
  constructor
  · intro h i h1 h2
    have := h i (List.mem_range'_1.mpr ⟨h1, by omega⟩)
    simpa using this
  · intro h i hi
    have hm := List.mem_range'_1.mp hi
    simp [h i hm.1 (by omega)]

theorem find?_range'_first (p : Nat → Bool) : ∀ (n s i : Nat), s ≤ i → i < s + n →
    p i = true → (∀ j, s ≤ j → j < i → p j = false) →
    (List.range' s n).find? p = some i := by
  intro n
  induction n with
  | zero => intro s i h1 h2; omega
  | succ m ih =>
    intro s i h1 h2 hp hmin
    rw [List.range'_succ]
    rcases Nat.eq_or_lt_of_le h1 with heq | hlt
    · subst heq
      exact List.find?_cons_of_pos _ hp
    · rw [List.find?_cons_of_neg _ (by simp [hmin s le_rfl hlt])]
      exact ih (s + 1) i hlt (by omega) hp fun j hj1 hj2 => hmin j (by omega) hj2

theorem firstFail_eq_some_of_first (fp0 : List Char) (fps : Nat → List Char) (n i : Nat)
    (h1 : 1 ≤ i) (h2 : i < n)
    (hfail : compare_fingerprints_with_tolerance fp0 (fps i) = false)
    (hmin : ∀ j, 1 ≤ j → j < i → compare_fingerprints_with_tolerance fp0 (fps j) = true) :
    firstFail fp0 fps n = some i := by
  unfold firstFail
  exact find?_range'_first _ (n - 1) 1 i h1 (by omega) (by simp [hfail])
    fun j hj1 hj2 => by simp [hmin j hj1 hj2]

theorem firstFail_mem (fp0 : List Char) (fps : Nat → List Char) (n i : Nat)
    (h : firstFail fp0 fps n = some i) :
    1 ≤ i ∧ i < n ∧ compare_fingerprints_with_tolerance fp0 (fps i) = false := by
  unfold firstFail at h
  have hmem := List.mem_range'_1.mp (List.mem_of_find?_eq_some h)
  have hp := List.find?_some h
  simp only [Bool.not_eq_true'] at hp
  exact ⟨hmem.1, by omega, hp⟩

theorem responseFor_eq_none_iff (st : CoordinatorState) (fds : Int → Int)
    (sp passed : Int) (i : Nat) :
    responseFor st fds sp passed i = none ↔
      ¬(0 ≤ st.instance_ids i ∧ st.instance_ids i < (MAX_INSTANCES : Int) ∧
        fds (st.instance_ids i) > 0) := by
  unfold responseFor
  split
  · split
    · simp_all
    · simp_all
  · simp_all

theorem buildResponses_ne_nil_iff (st : CoordinatorState) (fds : Int → Int)
    (sp passed : Int) :
    buildResponses st fds sp passed ≠ [] ↔
      ∃ i < st.instances_arrived, 0 ≤ st.instance_ids i ∧
        st.instance_ids i < (MAX_INSTANCES : Int) ∧ fds (st.instance_ids i) > 0 := by
  rw [Ne, buildResponses, List.filterMap_eq_nil_iff]
  push_neg
  constructor
  · rintro ⟨i, hi, hne⟩
    refine ⟨i, List.mem_range.mp hi, ?_⟩
    have h2 : ¬responseFor st fds sp passed i = none := hne
    rw [responseFor_eq_none_iff] at h2
    exact not_not.mp h2
  · rintro ⟨i, hi, hcond⟩
    refine ⟨i, List.mem_range.mpr hi, ?_⟩
    rw [Ne, responseFor_eq_none_iff]
    simpa using hcond

theorem mem_buildResponses (st : CoordinatorState) (fds : Int → Int)
    (sp passed : Int) (p : Int × ValidationMessage)
    (hp : p ∈ buildResponses st fds sp passed) :
    p.2.validation_passed = passed ∧ p.2.type = .MSG_VALIDATION_RESULT ∧
    (st.num_instances = 2 →
      ∃ i < st.instances_arrived, p.1 = st.instance_ids i ∧
        p.2.mismatch_details = (st.fingerprints (if i = 0 then 1 else 0)).take 511) ∧
    (st.num_instances ≠ 2 → p.2.mismatch_details = []) := by
  rw [buildResponses, List.mem_filterMap] at hp
  obtain ⟨i, hi, hfi⟩ := hp
  rw [List.mem_range] at hi
  simp only [responseFor] at hfi
  by_cases hc1 : 0 ≤ st.instance_ids i ∧ st.instance_ids i < (MAX_INSTANCES : Int)
  · rw [if_pos hc1] at hfi
    by_cases hc2 : fds (st.instance_ids i) > 0
    · rw [if_pos hc2] at hfi
      cases hfi
      exact ⟨rfl, rfl, fun h2 => ⟨i, hi, rfl, by simp [h2]⟩, fun h2 => by simp [h2]⟩
    · rw [if_neg hc2] at hfi
      exact Option.noConfusion hfi
  · rw [if_neg hc1] at hfi
    exact Option.noConfusion hfi

theorem arrivalState_current (st : CoordinatorState) (msg : ValidationMessage) :
    (arrivalState st msg).current_sync_point = msg.sync_point := by
  unfold arrivalState resetSlotIfNew
  by_cases h : st.current_sync_point = msg.sync_point <;> simp [h]

theorem arrivalState_arrived (st : CoordinatorState) (msg : ValidationMessage) :
    (arrivalState st msg).instances_arrived = arrivalSlot st msg + 1 := rfl

theorem arrivalState_num (st : CoordinatorState) (msg : ValidationMessage) :
    (arrivalState st msg).num_instances = st.num_instances := by
  unfold arrivalState resetSlotIfNew
  by_cases h : st.current_sync_point = msg.sync_point <;> simp [h]

theorem arrivalSlot_eq (st : CoordinatorState) (msg : ValidationMessage) :
    arrivalSlot st msg =
      if st.current_sync_point = msg.sync_point then st.instances_arrived else 0 := by
  unfold arrivalSlot resetSlotIfNew
  by_cases h : st.current_sync_point = msg.sync_point <;> simp [h]

/-- C6: on receipt of a SYNC_POINT message the live slot's id always
becomes the message's id; when the previous id differed the slot was
reset first — the store index is 0, the new arrival count is 1, and
every other fingerprint entry reads cleared (empty) and every other
instance-id entry reads -1 — while a message bearing the live id is
appended without reset: the store index is the previous arrival count
and all other entries are preserved. -/
theorem claim_C6_slot_reset_on_new_id (st : CoordinatorState) (fds : Int → Int)
    (msg : ValidationMessage) :
    (handle_sync_point_message st fds msg).state.current_sync_point = msg.sync_point ∧
    (handle_sync_point_message st fds msg).slot =
      (if st.current_sync_point = msg.sync_point then st.instances_arrived else 0) ∧
    (handle_sync_point_message st fds msg).state.instances_arrived =
      (handle_sync_point_message st fds msg).slot + 1 ∧
    (handle_sync_point_message st fds msg).state.fingerprints
        ((handle_sync_point_message st fds msg).slot) =
      msg.fingerprint.take (MAX_FINGERPRINT_LEN - 1) ∧
    (handle_sync_point_message st fds msg).state.instance_ids
        ((handle_sync_point_message st fds msg).slot) = msg.instance_id ∧
    (∀ j, j ≠ (handle_sync_point_message st fds msg).slot →
      (handle_sync_point_message st fds msg).state.fingerprints j =
        (if st.current_sync_point = msg.sync_point then st.fingerprints j else [])) ∧
    (∀ j, j ≠ (handle_sync_point_message st fds msg).slot →
      (handle_sync_point_message st fds msg).state.instance_ids j =
        (if st.current_sync_point = msg.sync_point then st.instance_ids j else -1)) ∧
    (handle_sync_point_message st fds msg).state.num_instances = st.num_instances := by
  rw [handle_state_eq, handle_slot_eq]
  unfold arrivalState arrivalSlot resetSlotIfNew
  by_cases h : st.current_sync_point = msg.sync_point <;>
    refine ⟨by simp [h], by simp [h], by simp [h], by simp [h], by simp [h],
      fun j hj => ?_, fun j hj => ?_, by simp [h]⟩ <;>
    · simp only [h] at hj ⊢
      simp [h] at hj
      simp [h, hj]

/-- C1 (amended): when the arrival that completes the round is stored —
arrival count equal to `num_instances` — the coordinator compares
`fingerprints[0]` against each other stored fingerprint.  If all
comparisons pass it does not abort and every VALIDATION_RESULT it
builds has `validation_passed = 1`, with `mismatch_details` carrying
the *other* arrival's (truncated) fingerprint when `num_instances = 2`
and the empty string otherwise.  If some comparison fails, the
coordinator formats the mismatch string for the first failing index
into its log and aborts via `assert(0)` without building any
VALIDATION_RESULT. -/
theorem claim_C1_validation_result_construction (st : CoordinatorState)
    (fds : Int → Int) (msg : ValidationMessage)
    (h : (arrivalState st msg).instances_arrived = (arrivalState st msg).num_instances) :
    ((∀ i, 1 ≤ i → i < (arrivalState st msg).num_instances →
        compare_fingerprints_with_tolerance ((arrivalState st msg).fingerprints 0)
          ((arrivalState st msg).fingerprints i) = true) →
      (handle_sync_point_message st fds msg).aborted = false ∧
      (handle_sync_point_message st fds msg).logMismatch = none ∧
      ∀ p ∈ (handle_sync_point_message st fds msg).responses,
        p.2.validation_passed = 1 ∧
        ((arrivalState st msg).num_instances = 2 →
          ∃ i < (arrivalState st msg).instances_arrived,
            p.1 = (arrivalState st msg).instance_ids i ∧
            p.2.mismatch_details =
              ((arrivalState st msg).fingerprints (if i = 0 then 1 else 0)).take 511) ∧
        ((arrivalState st msg).num_instances ≠ 2 → p.2.mismatch_details = [])) ∧
    (∀ i, 1 ≤ i → i < (arrivalState st msg).num_instances →
      compare_fingerprints_with_tolerance ((arrivalState st msg).fingerprints 0)
        ((arrivalState st msg).fingerprints i) = false →
      (∀ j, 1 ≤ j → j < i →
        compare_fingerprints_with_tolerance ((arrivalState st msg).fingerprints 0)
          ((arrivalState st msg).fingerprints j) = true) →
      (handle_sync_point_message st fds msg).aborted = true ∧
      (handle_sync_point_message st fds msg).responses = [] ∧
      (handle_sync_point_message st fds msg).logMismatch =
        some (mismatchString msg.sync_point ((arrivalState st msg).instance_ids 0)
          ((arrivalState st msg).fingerprints 0)
          ((arrivalState st msg).instance_ids i)
          ((arrivalState st msg).fingerprints i))) := by
  constructor
  · intro hall
    have hm : firstFail ((arrivalState st msg).fingerprints 0)
        (arrivalState st msg).fingerprints (arrivalState st msg).num_instances = none :=
      (firstFail_eq_none_iff _ _ _).mpr hall
    rw [handle_full_pass st fds msg h hm]
    refine ⟨rfl, rfl, ?_⟩
    intro p hp
    have hmem := mem_buildResponses (arrivalState st msg) fds msg.sync_point 1 p hp
    exact ⟨hmem.1, fun h2 => (hmem.2.2.1 h2), fun h2 => hmem.2.2.2 h2⟩
  · intro i h1 h2 hfail hmin
    have hm : firstFail ((arrivalState st msg).fingerprints 0)
        (arrivalState st msg).fingerprints (arrivalState st msg).num_instances = some i :=
      firstFail_eq_some_of_first _ _ _ i h1 h2 hfail hmin
    rw [handle_full_fail st fds msg i h hm]
    exact ⟨rfl, rfl, rfl⟩

/-- Witness for C1 (amended) at the one-participant round: the single
arrival completes the round, every comparison passes vacuously, and the
coordinator does not abort. -/
theorem claim_C1_validation_result_construction_witness :
    (handle_sync_point_message (initCoordinatorState 1) fdsAll7
      (syncMsg 0 1 ['a'])).aborted = false :=
  ((claim_C1_validation_result_construction (initCoordinatorState 1) fdsAll7
      (syncMsg 0 1 ['a']) rfl).1
    (by
      intro i h1 h2
      have hn : (arrivalState (initCoordinatorState 1)
          (syncMsg 0 1 ['a'])).num_instances = 1 := rfl
      omega)).1

/-- C1 counterexample, claim as frozen.  First run (N = 2, both
fingerprints `a`, all pairs equal): the built results carry
`validation_passed = 1` but `mismatch_details` is the peer fingerprint
`a`, not the empty string the claim requires.  Second run (N = 2,
fingerprints `1.0` vs `5.0`, a failing pair): the claim requires a
VALIDATION_RESULT with `validation_passed = 0` and the mismatch string,
but the coordinator aborts with no result built at all. -/
theorem claim_C1_counterexample :
    ((handle_sync_point_message
        (handle_sync_point_message (initCoordinatorState 2) fdsAll7
          (syncMsg 0 5 ['a'])).state
        fdsAll7 (syncMsg 1 5 ['a'])).responses =
      [(0, ⟨.MSG_VALIDATION_RESULT, -1, 5, [], 1, ['a']⟩),
       (1, ⟨.MSG_VALIDATION_RESULT, -1, 5, [], 1, ['a']⟩)] ∧
      (['a'] : List Char) ≠ [] ∧
      compare_fingerprints_with_tolerance ['a'] ['a'] = true) ∧
    ((handle_sync_point_message
        (handle_sync_point_message (initCoordinatorState 2) fdsAll7
          (syncMsg 0 9 "1.0".data)).state
        fdsAll7 (syncMsg 1 9 "5.0".data)).aborted = true ∧
     (handle_sync_point_message
        (handle_sync_point_message (initCoordinatorState 2) fdsAll7
          (syncMsg 0 9 "1.0".data)).state
        fdsAll7 (syncMsg 1 9 "5.0".data)).responses = []) := by
  exact ⟨⟨by decide, by decide, by decide⟩, by decide, by decide⟩

/-- C4 evidence: on a completed round whose fingerprints mismatch
(N = 2, `x` vs `y`, every fd registered and positive), the
coordinator's `assert(0)` fires before the broadcast loop, so the
failing VALIDATION_RESULT is never sent to any participant. -/
theorem claim_C4_abort_precedes_broadcast :
    (handle_sync_point_message
        (handle_sync_point_message (initCoordinatorState 2) fdsAll7
          (syncMsg 0 1 ['x'])).state
        fdsAll7 (syncMsg 1 1 ['y'])).aborted = true ∧
    (handle_sync_point_message
        (handle_sync_point_message (initCoordinatorState 2) fdsAll7
          (syncMsg 0 1 ['x'])).state
        fdsAll7 (syncMsg 1 1 ['y'])).responses = [] := by
  exact ⟨by decide, by decide⟩

/-- C3 (amended): the coordinator sends VALIDATION_RESULTs on a
SYNC_POINT receipt iff the arrival counter has just reached
`num_instances`, every stored fingerprint compares equal to
`fingerprints[0]` (otherwise the coordinator aborts before the
broadcast loop), and at least one arrival slot holds an instance id in
`[0, MAX_INSTANCES)` whose registered fd is positive.  Arrivals are
counted without any distinctness check on instance ids. -/
theorem claim_C3_broadcast_iff_full_and_match (st : CoordinatorState)
    (fds : Int → Int) (msg : ValidationMessage) :
    (handle_sync_point_message st fds msg).responses ≠ [] ↔
      ((arrivalState st msg).instances_arrived = (arrivalState st msg).num_instances ∧
       (∀ i, 1 ≤ i → i < (arrivalState st msg).num_instances →
          compare_fingerprints_with_tolerance ((arrivalState st msg).fingerprints 0)
            ((arrivalState st msg).fingerprints i) = true) ∧
       ∃ i < (arrivalState st msg).instances_arrived,
         0 ≤ (arrivalState st msg).instance_ids i ∧
         (arrivalState st msg).instance_ids i < (MAX_INSTANCES : Int) ∧
         fds ((arrivalState st msg).instance_ids i) > 0) := by
  by_cases h : (arrivalState st msg).instances_arrived = (arrivalState st msg).num_instances
  · cases hm : firstFail ((arrivalState st msg).fingerprints 0)
        (arrivalState st msg).fingerprints (arrivalState st msg).num_instances with
    | none =>
      have hall := (firstFail_eq_none_iff ((arrivalState st msg).fingerprints 0)
        (arrivalState st msg).fingerprints (arrivalState st msg).num_instances).mp hm
      have hresp : (handle_sync_point_message st fds msg).responses =
          buildResponses (arrivalState st msg) fds msg.sync_point 1 := by
        rw [handle_full_pass st fds msg h hm]
      rw [hresp, buildResponses_ne_nil_iff]
      constructor
      · intro hex
        exact ⟨h, hall, hex⟩
      · rintro ⟨-, -, hex⟩
        exact hex
    | some i =>
      rw [handle_full_fail st fds msg i h hm]
      obtain ⟨h1, h2, hfail⟩ := firstFail_mem ((arrivalState st msg).fingerprints 0)
        (arrivalState st msg).fingerprints (arrivalState st msg).num_instances i hm
      constructor
      · intro hc
        exact absurd rfl hc
      · rintro ⟨-, hall, -⟩
        rw [hall i h1 h2] at hfail
        cases hfail
  · rw [handle_not_full st fds msg h]
    constructor
    · intro hc
      exact absurd rfl hc
    · rintro ⟨hfull, -, -⟩
      exact absurd hfull h

/-- Witness for C2 at a concrete pair of equal fingerprints. -/
theorem claim_C2_comparator_matches_spec_witness : matchesSpec ['a'] ['a'] :=
  ((claim_C2_comparator_matches_spec ['a'] ['a']).1).mp (by decide)

/-- C3 counterexample, claim as frozen: with N = 2, two SYNC_POINT
messages for sync point 3 both from instance 1 (so the arrivals do not
cover two distinct instance ids) still drive the arrival counter to 2
and the coordinator broadcasts a VALIDATION_RESULT. -/
theorem claim_C3_counterexample :
    (handle_sync_point_message
        (handle_sync_point_message (initCoordinatorState 2) fdsAll7
          (syncMsg 1 3 ['b'])).state
        fdsAll7 (syncMsg 1 3 ['b'])).state.instance_ids 0 = 1 ∧
    (handle_sync_point_message
        (handle_sync_point_message (initCoordinatorState 2) fdsAll7
          (syncMsg 1 3 ['b'])).state
        fdsAll7 (syncMsg 1 3 ['b'])).state.instance_ids 1 = 1 ∧
    (handle_sync_point_message
        (handle_sync_point_message (initCoordinatorState 2) fdsAll7
          (syncMsg 1 3 ['b'])).state
        fdsAll7 (syncMsg 1 3 ['b'])).responses ≠ [] := by
  refine ⟨by decide, by decide, by decide⟩

/-- Witness for C3 (amended) at the one-participant round: the single
arrival completes the round and a result is broadcast. -/
theorem claim_C3_broadcast_iff_witness :
    (handle_sync_point_message (initCoordinatorState 1) fdsAll7
      (syncMsg 0 2 ['c'])).responses ≠ [] :=
  (claim_C3_broadcast_iff_full_and_match (initCoordinatorState 1) fdsAll7
      (syncMsg 0 2 ['c'])).mpr
    ⟨rfl,
     by
       intro i h1 h2
       have hn : (arrivalState (initCoordinatorState 1)
           (syncMsg 0 2 ['c'])).num_instances = 1 := rfl
       omega,
     ⟨0, by decide, by decide, by decide, by decide⟩⟩

/-- Witness for C6 at a concrete reset round: the live slot id becomes
the message id. -/
theorem claim_C6_slot_reset_on_new_id_witness :
    (handle_sync_point_message (initCoordinatorState 2) fdsAll7
      (syncMsg 0 7 ['d'])).state.current_sync_point = 7 :=
  (claim_C6_slot_reset_on_new_id (initCoordinatorState 2) fdsAll7 (syncMsg 0 7 ['d'])).1

theorem leadRun_le_of_runsBounded (l : List Int) (H : RunsBounded l) (c : Int) :
    leadRun c l ≤ MAX_INSTANCES := by
  cases l with
  | nil => simp [leadRun, MAX_INSTANCES]
  | cons x xs =>
    by_cases hc : x = c
    · subst hc
      have := H 0 (by simp)
      simpa using this
    · simp [leadRun, hc]

theorem runsBounded_tail (x : Int) (xs : List Int) (H : RunsBounded (x :: xs)) :
    RunsBounded xs := by
  intro i h
  have := H (i + 1) (by simpa using Nat.succ_lt_succ h)
  simpa using this

theorem processMessages_slots_lt (fds : Int → Int) :
    ∀ (msgs : List ValidationMessage) (st : CoordinatorState),
      RunsBounded (msgs.map (fun m => m.sync_point)) →
      st.instances_arrived +
          leadRun st.current_sync_point (msgs.map (fun m => m.sync_point)) ≤
        MAX_INSTANCES →
      ∀ s ∈ processMessages st fds msgs, s < MAX_INSTANCES := by
  intro msgs
  induction msgs with
  | nil =>
    intro st H inv s hs
    simp [processMessages] at hs
  | cons m rest ih =>
    intro st H inv s hs
    have hM : MAX_INSTANCES = 4 := rfl
    have hslot := handle_slot_eq st fds m
    have hstate := handle_state_eq st fds m
    have hslotv := arrivalSlot_eq st m
    have harr : (handle_sync_point_message st fds m).state.instances_arrived =
        arrivalSlot st m + 1 := by
      rw [hstate]
      exact arrivalState_arrived st m
    have hcur : (handle_sync_point_message st fds m).state.current_sync_point =
        m.sync_point := by
      rw [hstate]
      exact arrivalState_current st m
    have Ht : RunsBounded (rest.map (fun x => x.sync_point)) := runsBounded_tail _ _ H
    simp only [processMessages] at hs
    by_cases hsp : st.current_sync_point = m.sync_point
    · have hlr : leadRun st.current_sync_point ((m :: rest).map (fun x => x.sync_point)) =
          leadRun st.current_sync_point (rest.map (fun x => x.sync_point)) + 1 := by
        simp [leadRun, hsp]
      rw [hlr] at inv
      have hslt : (handle_sync_point_message st fds m).slot < MAX_INSTANCES := by
        rw [hslot, hslotv, if_pos hsp]
        omega
      have hinv' : (handle_sync_point_message st fds m).state.instances_arrived +
          leadRun (handle_sync_point_message st fds m).state.current_sync_point
            (rest.map (fun x => x.sync_point)) ≤ MAX_INSTANCES := by
        rw [harr, hcur, hslotv, if_pos hsp, ← hsp]
        omega
      by_cases hab : (handle_sync_point_message st fds m).aborted
      · rw [if_pos hab] at hs
        rw [List.mem_singleton] at hs
        subst hs
        exact hslt
      · rw [if_neg hab] at hs
        rcases List.mem_cons.mp hs with h1 | h2
        · subst h1
          exact hslt
        · exact ih (handle_sync_point_message st fds m).state Ht hinv' s h2
    · have hslt : (handle_sync_point_message st fds m).slot < MAX_INSTANCES := by
        rw [hslot, hslotv, if_neg hsp, hM]
        omega
      have hinv' : (handle_sync_point_message st fds m).state.instances_arrived +
          leadRun (handle_sync_point_message st fds m).state.current_sync_point
            (rest.map (fun x => x.sync_point)) ≤ MAX_INSTANCES := by
        rw [harr, hcur, hslotv, if_neg hsp]
        have h0 := H 0 (by simp)
        have hstep : leadRun m.sync_point ((m :: rest).map (fun x => x.sync_point)) =
            leadRun m.sync_point (rest.map (fun x => x.sync_point)) + 1 := by
          simp [leadRun]
        simp only [List.get, List.drop_zero] at h0
        rw [hstep] at h0
        omega
      by_cases hab : (handle_sync_point_message st fds m).aborted
      · rw [if_pos hab] at hs
        rw [List.mem_singleton] at hs
        subst hs
        exact hslt
      · rw [if_neg hab] at hs
        rcases List.mem_cons.mp hs with h1 | h2
        · subst h1
          exact hslt
        · exact ih (handle_sync_point_message st fds m).state Ht hinv' s h2

/-- C10: starting from the freshly initialized coordinator, for every
received SYNC_POINT sequence in which at most `MAX_INSTANCES`
consecutive messages carry the same sync-point id (each registered
participant submits each sync point at most once, and there are
`N ≤ MAX_INSTANCES` participants), every store
`handle_sync_point_message` performs into the `fingerprints` and
`instance_ids` arrays uses an index strictly below `MAX_INSTANCES` —
the code itself performs no bounds check on that index. -/
theorem claim_C10_store_index_in_bounds (n : Nat) (fds : Int → Int)
    (msgs : List ValidationMessage)
    (H : RunsBounded (msgs.map (fun m => m.sync_point))) :
    ∀ s ∈ processMessages (initCoordinatorState n) fds msgs, s < MAX_INSTANCES := by
  apply processMessages_slots_lt fds msgs (initCoordinatorState n) H
  have h0 : (initCoordinatorState n).instances_arrived = 0 := rfl
  rw [h0, Nat.zero_add]
  exact leadRun_le_of_runsBounded _ H _

/-- Witness for C10: a two-submission round for one sync point with two
participants uses only in-bounds indices; in particular the index 0 it
uses is below `MAX_INSTANCES`. -/
theorem leadRun_le_length (c : Int) : ∀ (l : List Int), leadRun c l ≤ l.length
  | [] => Nat.le_refl 0
  | x :: xs => by
    simp only [leadRun, List.length_cons]
    split
    · exact Nat.succ_le_succ (leadRun_le_length c xs)
    · exact Nat.zero_le _

theorem claim_C10_store_index_in_bounds_witness : (0 : Nat) < MAX_INSTANCES :=
  claim_C10_store_index_in_bounds 2 fdsAll7 [syncMsg 0 1 ['a'], syncMsg 1 1 ['a']]
    (by
      intro i h
      refine le_trans (leadRun_le_length _ _) ?_
      rw [List.length_drop]
      have hM : MAX_INSTANCES = 4 := rfl
      simp only [List.length_map, List.length_cons, List.length_nil]
      omega)
    0 (by decide)

end CrossValidation
